import Mathlib

/-!
Shallow embedding of the two services of this repository:
`src/services/product-svc/app.py` (ProductCatalog) and
`src/services/order-svc/main.py` (OrderLedger).

Prices and amounts are modelled as exact rationals (`ℚ`); the in-memory
collections (`products`, `orders` globals in the source) are modelled as
explicit `List` state threaded through each operation; request handlers
that can fail return `Except SvcError`.  Fresh ids and timestamps, which
the source draws from `uuid` and `datetime`, are passed in as parameters.
-/

/-- Error taxonomy of both services: 400/422 responses are `validation`,
404 responses are `notFound`. -/
inductive SvcError where
  | validation
  | notFound
deriving Repr, DecidableEq

/-- A record of the product catalog (`products` list entries in
`product-svc/app.py`). -/
structure Product where
  id : String
  name : String
  price : ℚ
  category : String
  stock : Int
  created_at : Option String := none
  updated_at : Option String := none
deriving Repr, DecidableEq

/-- The seeded catalog (`products = [...]` at module top of
`product-svc/app.py`). -/
def products : List Product :=
  [ { id := "1", name := "Laptop", price := 999.99, category := "Electronics", stock := 50 },
    { id := "2", name := "Phone", price := 699.99, category := "Electronics", stock := 100 },
    { id := "3", name := "Book", price := 19.99, category := "Books", stock := 200 },
    { id := "4", name := "Headphones", price := 149.99, category := "Electronics", stock := 75 } ]

/-- Handler `GET /products` (`get_products` in `app.py`): three successive list
filters; the category filter is guarded by Python truthiness (`if category:`
skips both `None` and `""`), the price filters by `is not None`. -/
def get_products (ps : List Product) (category : Option String)
    (min_price max_price : Option ℚ) : List Product :=
  let fp := ps
  let fp := match category with
    | some c => if c ≠ "" then fp.filter (fun p => p.category.toLower == c.toLower) else fp
    | none => fp
  let fp := match min_price with
    | some m => fp.filter (fun p => decide (m ≤ p.price))
    | none => fp
  let fp := match max_price with
    | some m => fp.filter (fun p => decide (p.price ≤ m))
    | none => fp
  fp

/-- Handler `GET /products/{id}` (`get_product`): first record with matching id,
404 when none. -/
def get_product (ps : List Product) (product_id : String) : Except SvcError Product :=
  match ps.find? (fun p => p.id == product_id) with
  | none => .error .notFound
  | some p => .ok p

/-- Handler `POST /products` (`create_product`): requires `name`, `price`,
`category` to be present in the JSON body (presence only — no sign check on
`price`); `stock` defaults to 0; appends the new record. -/
def create_product (ps : List Product) (newId ts : String)
    (name : Option String) (price : Option ℚ) (category : Option String)
    (stock : Option Int) : Except SvcError (Product × List Product) :=
  match name, price, category with
  | some n, some pr, some c =>
      let np : Product :=
        { id := newId, name := n, price := pr, category := c,
          stock := stock.getD 0, created_at := some ts }
      .ok (np, ps ++ [np])
  | _, _, _ => .error .validation

/-- The JSON body of `PUT /products/{id}`: each catalog field optionally
present (`data.get(k, current)` in the source). -/
structure ProductPatch where
  name : Option String := none
  price : Option ℚ := none
  category : Option String := none
  stock : Option Int := none
deriving Repr, DecidableEq

/-- Python truthiness test `if not data:` on the patch body. -/
def dataEmpty (d : ProductPatch) : Bool :=
  d.name.isNone && d.price.isNone && d.category.isNone && d.stock.isNone

/-- The `product.update({...})` merge of `update_product`: every supplied
field overwrites, every absent field keeps the stored value, `updated_at`
is stamped. -/
def mergeProduct (p : Product) (d : ProductPatch) (ts : String) : Product :=
  { p with
    name := d.name.getD p.name,
    price := d.price.getD p.price,
    category := d.category.getD p.category,
    stock := d.stock.getD p.stock,
    updated_at := some ts }

/-- In-place mutation of the first record with the given id (the source's
`next(...)` lookup returns a reference into the list and mutates it). -/
def updateProductFirst : List Product → String → (Product → Product) → List Product
  | [], _, _ => []
  | p :: ps, pid, f =>
      if p.id == pid then f p :: ps else p :: updateProductFirst ps pid f

/-- Handler `PUT /products/{id}` (`update_product`): 404 when the id is absent,
400 when the body is empty, otherwise merge in place. -/
def update_product (ps : List Product) (product_id : String) (d : ProductPatch)
    (ts : String) : Except SvcError (Product × List Product) :=
  match ps.find? (fun p => p.id == product_id) with
  | none => .error .notFound
  | some p =>
      if dataEmpty d then .error .validation
      else .ok (mergeProduct p d ts,
                updateProductFirst ps product_id (fun q => mergeProduct q d ts))

/-- Handler `DELETE /products/{id}` (`delete_product`): rebuilds the list without
any record of that id; never errors. -/
def delete_product (ps : List Product) (product_id : String) : List Product :=
  ps.filter (fun p => p.id != product_id)

/-- An order line (`OrderItem` Pydantic model in `order-svc/main.py`). -/
structure OrderItem where
  product_id : String
  quantity : Int
  price : ℚ
deriving Repr, DecidableEq

/-- The Pydantic field constraints `quantity: int = Field(gt=0)`,
`price: float = Field(gt=0)`. -/
def OrderItem.valid (it : OrderItem) : Bool :=
  decide (0 < it.quantity) && decide (0 < it.price)

/-- A record of the order ledger (`orders` list entries). -/
structure Order where
  id : String
  user_id : String
  items : List OrderItem
  total_amount : ℚ
  status : String
  shipping_address : String
  created_at : String
  updated_at : Option String := none
deriving Repr, DecidableEq

/-- The seeded ledger (`orders = [...]` at module top of
`order-svc/main.py`). -/
def orders : List Order :=
  [ { id := "order-1", user_id := "1",
      items := [ { product_id := "1", quantity := 1, price := 999.99 },
                 { product_id := "4", quantity := 2, price := 149.99 } ],
      total_amount := 1299.97, status := "completed",
      shipping_address := "123 Main St, City, State",
      created_at := "2024-01-15T10:30:00Z" },
    { id := "order-2", user_id := "2",
      items := [ { product_id := "2", quantity := 1, price := 699.99 } ],
      total_amount := 699.99, status := "pending",
      shipping_address := "456 Oak Ave, Town, State",
      created_at := "2024-01-16T14:20:00Z" } ]

/-- Total `sum(item.quantity * item.price for item in items)`. -/
def orderTotal (items : List OrderItem) : ℚ :=
  (items.map (fun it => (it.quantity : ℚ) * it.price)).sum

/-- Handler `GET /orders` (`get_orders`): successive exact-match filters on
`user_id` and `status`, each guarded by Python truthiness (skipped for
`None` and `""`). -/
def get_orders (os : List Order) (user_id sta : Option String) : List Order :=
  let fo := os
  let fo := match user_id with
    | some u => if u ≠ "" then fo.filter (fun o => o.user_id == u) else fo
    | none => fo
  let fo := match sta with
    | some s => if s ≠ "" then fo.filter (fun o => o.status == s) else fo
    | none => fo
  fo

/-- Handler `GET /orders/{id}` (`get_order`). -/
def get_order (os : List Order) (order_id : String) : Except SvcError Order :=
  match os.find? (fun o => o.id == order_id) with
  | none => .error .notFound
  | some o => .ok o

/-- Handler `POST /orders` (`create_order`, together with the Pydantic validation
of `OrderCreate`): every item must satisfy `quantity > 0` and `price > 0`
(an empty `items` list passes — the model declares `List[OrderItem]` with
no minimum length); on success the total is computed, status forced to
`"pending"`, and the record appended. -/
def create_order (os : List Order) (newId ts : String) (user_id : String)
    (items : List OrderItem) (shipping_address : String) :
    Except SvcError (Order × List Order) :=
  if items.all OrderItem.valid then
    let o : Order :=
      { id := newId, user_id := user_id, items := items,
        total_amount := orderTotal items, status := "pending",
        shipping_address := shipping_address, created_at := ts }
    .ok (o, os ++ [o])
  else .error .validation

/-- The `valid_statuses` list of `update_order_status`. -/
def valid_statuses : List String :=
  ["pending", "processing", "shipped", "delivered", "cancelled"]

/-- In-place mutation of the first order with the given id. -/
def updateOrderFirst : List Order → String → (Order → Order) → List Order
  | [], _, _ => []
  | o :: os, oid, f =>
      if o.id == oid then f o :: os else o :: updateOrderFirst os oid f

/-- Handler `PUT /orders/{id}/status` (`update_order_status`): 400 when the new
status is not in `valid_statuses` (checked before any lookup), 404 when the
id is absent, otherwise sets `status` and stamps `updated_at` in place. -/
def update_order_status (os : List Order) (order_id sta ts : String) :
    Except SvcError (Order × List Order) :=
  if valid_statuses.contains sta = false then .error .validation
  else
    match os.find? (fun o => o.id == order_id) with
    | none => .error .notFound
    | some o =>
        .ok ({ o with status := sta, updated_at := some ts },
             updateOrderFirst os order_id
               (fun q => { q with status := sta, updated_at := some ts }))

/-- Handler `DELETE /orders/{id}` (`cancel_order`): filters the id out; never
errors. -/
def cancel_order (os : List Order) (order_id : String) : List Order :=
  os.filter (fun o => o.id != order_id)

/-- One mutating request against the order service. -/
inductive OrderOp where
  | create (newId ts user_id : String) (items : List OrderItem) (addr : String)
  | updateStatus (order_id sta ts : String)
  | delete (order_id : String)
deriving Repr, DecidableEq

/-- State transition of the ledger under one request: a failed request
(400/404) leaves the global list untouched. -/
def applyOrderOp (st : List Order) (op : OrderOp) : List Order :=
  match op with
  | .create nid ts uid its addr =>
      match create_order st nid ts uid its addr with
      | .ok (_, st') => st'
      | .error _ => st
  | .updateStatus oid s ts =>
      match update_order_status st oid s ts with
      | .ok (_, st') => st'
      | .error _ => st
  | .delete oid => cancel_order st oid

/-- The ledger state reached from the seeded state by a sequence of
requests. -/
def runOrderOps (ops : List OrderOp) : List Order :=
  ops.foldl applyOrderOp orders

/-- The derived-total invariant of an order record. -/
def orderConsistent (o : Order) : Prop :=
  o.total_amount = orderTotal o.items

instance (o : Order) : Decidable (orderConsistent o) := by
  unfold orderConsistent; infer_instance

/-- Status and `updated_at` of the order returned by a successful
request, `none` on failure. -/
def statusOfResult (r : Except SvcError (Order × List Order)) :
    Option (String × Option String) :=
  match r with
  | .ok (o, _) => some (o.status, o.updated_at)
  | .error _ => none

/-- The order produced by `createOrder` with an empty `items` list (used
to exhibit that the empty list passes Pydantic validation). -/
def emptyItemsOrder : Order :=
  { id := "order-x", user_id := "u1", items := [], total_amount := 0,
    status := "pending", shipping_address := "addr", created_at := "t0" }

/-- A catalog record with a negative price, as `createProduct` happily
produces it. -/
def badProduct : Product :=
  { id := "prod-x", name := "Junk", price := -5, category := "Misc",
    stock := 0, created_at := some "t0" }

/-- The record a successful `createProduct` builds from its inputs. -/
def newProductRecord (nid ts n : String) (pr : ℚ) (c : String)
    (stk : Option Int) : Product :=
  { id := nid, name := n, price := pr, category := c,
    stock := stk.getD 0, created_at := some ts }

/-- Spec-side category predicate of `listProducts` (case-insensitive exact
match; absent or empty filter is a no-op). -/
def catMatches (c : Option String) (p : Product) : Bool :=
  match c with
  | some s => if s ≠ "" then p.category.toLower == s.toLower else true
  | none => true

/-- Spec-side minimum-price predicate (`price >= minPrice`; absent is a
no-op). -/
def minMatches (m : Option ℚ) (p : Product) : Bool :=
  match m with
  | some v => decide (v ≤ p.price)
  | none => true

/-- Spec-side maximum-price predicate (`price <= maxPrice`; absent is a
no-op). -/
def maxMatches (m : Option ℚ) (p : Product) : Bool :=
  match m with
  | some v => decide (p.price ≤ v)
  | none => true

/-! ### Helper lemmas -/

lemma filter_comp {α : Type} (f g : α → Bool) (l : List α) :
    (l.filter f).filter g = l.filter (fun a => f a && g a) := by
  induction l with
  | nil => rfl
  | cons x xs ih =>
      by_cases hf : f x <;> by_cases hg : g x <;>
        simp [List.filter_cons, hf, hg, ih]

lemma find?_delete_none (ps : List Product) (pid : String) :
    (delete_product ps pid).find? (fun p => p.id == pid) = none := by
  rw [List.find?_eq_none]
  intro x hx
  have hmem := List.mem_filter.mp hx
  simpa using hmem.2

/-- C9: deleting a product makes a subsequent lookup of the same id fail
with NotFound, and `deleteProduct` is idempotent: deleting the same id a
second time is error-free (the operation never errors) and leaves the
collection exactly as after the first delete. -/
theorem deleteProduct_then_get_and_idempotent (ps : List Product) (pid : String) :
    get_product (delete_product ps pid) pid = .error .notFound
    ∧ delete_product (delete_product ps pid) pid = delete_product ps pid := by
  constructor
  · simp [get_product, find?_delete_none]
  · simp [delete_product, filter_comp]

/-- C10: an empty-string filter value is falsy in the source's guards, so
it is treated as an absent filter: `listProducts` with category `""` and
`listOrders` with user_id `""` or status `""` each return the whole
collection. -/
theorem empty_string_filters_are_noops (ps : List Product) (os : List Order) :
    get_products ps (some "") none none = ps
    ∧ get_orders os (some "") none = os
    ∧ get_orders os none (some "") = os := by
  refine ⟨rfl, rfl, rfl⟩

/-- C5: `listProducts` returns exactly the sublist of the collection whose
records satisfy every supplied predicate conjunctively (category
case-insensitive match, `price ≥ minPrice`, `price ≤ maxPrice`), in the
collection's order; absent filters are no-ops and with no filters the whole
collection is returned. -/
theorem listProducts_conjunctive (ps : List Product) (c : Option String)
    (mn mx : Option ℚ) :
    get_products ps c mn mx
      = ps.filter (fun p => catMatches c p && minMatches mn p && maxMatches mx p)
    ∧ get_products ps none none none = ps := by
  refine ⟨?_, rfl⟩
  rcases c with _ | s
  · rcases mn with _ | m <;> rcases mx with _ | x <;>
      simp [get_products, catMatches, minMatches, maxMatches,
        Bool.and_comm, Bool.and_left_comm, Bool.and_assoc]
  · by_cases hs : s = "" <;> rcases mn with _ | m <;> rcases mx with _ | x <;>
      simp [get_products, catMatches, minMatches, maxMatches, hs,
        Bool.and_comm, Bool.and_left_comm, Bool.and_assoc]

/-- C6: an invalid new status makes `updateOrderStatus` fail with
ValidationError before any lookup or mutation, so the ledger — every
order's `status` and `updated_at` included — is left exactly as it was. -/
theorem updateOrderStatus_invalid_leaves_state (st : List Order)
    (oid s ts : String) (h : s ∉ valid_statuses) :
    update_order_status st oid s ts = .error .validation
    ∧ applyOrderOp st (.updateStatus oid s ts) = st := by
  constructor
  · simp [update_order_status, h]
  · simp [applyOrderOp, update_order_status, h]

theorem updateOrderStatus_invalid_leaves_state_witness :
    "bogus" ∉ valid_statuses
    ∧ (update_order_status orders "order-1" "bogus" "2024-02-01T00:00:00Z"
        = .error .validation
      ∧ applyOrderOp orders (.updateStatus "order-1" "bogus" "2024-02-01T00:00:00Z")
        = orders) :=
  ⟨by decide,
   updateOrderStatus_invalid_leaves_state orders "order-1" "bogus"
     "2024-02-01T00:00:00Z" (by decide)⟩

/-- C7: for an order present in the ledger and any new status inside the
valid-state set, `updateOrderStatus` succeeds whatever the current status
is — no transition-graph restriction — setting `status` to the new value
and stamping `updated_at`. -/
theorem updateOrderStatus_any_valid_transition (st : List Order)
    (oid s ts : String) (o : Order) (ho : o ∈ st) (hid : o.id = oid)
    (hs : s ∈ valid_statuses) :
    statusOfResult (update_order_status st oid s ts) = some (s, some ts) := by
  have hsome : (st.find? (fun q => q.id == oid)).isSome := by
    rw [List.find?_isSome]
    exact ⟨o, ho, by simp [hid]⟩
  obtain ⟨o₀, hfind⟩ := Option.isSome_iff_exists.mp hsome
  simp [update_order_status, statusOfResult, hs, hfind]

theorem updateOrderStatus_any_valid_transition_witness :
    ({ id := "order-2", user_id := "2",
       items := [ { product_id := "2", quantity := 1, price := 699.99 } ],
       total_amount := 699.99, status := "pending",
       shipping_address := "456 Oak Ave, Town, State",
       created_at := "2024-01-16T14:20:00Z" } : Order) ∈ orders
    ∧ "shipped" ∈ valid_statuses
    ∧ statusOfResult
        (update_order_status orders "order-2" "shipped" "2024-02-01T00:00:00Z")
        = some ("shipped", some "2024-02-01T00:00:00Z") :=
  ⟨List.Mem.tail _ (List.Mem.head _), by decide,
   updateOrderStatus_any_valid_transition orders "order-2" "shipped"
     "2024-02-01T00:00:00Z"
     { id := "order-2", user_id := "2",
       items := [ { product_id := "2", quantity := 1, price := 699.99 } ],
       total_amount := 699.99, status := "pending",
       shipping_address := "456 Oak Ave, Town, State",
       created_at := "2024-01-16T14:20:00Z" }
     (List.Mem.tail _ (List.Mem.head _)) rfl (by decide)⟩

/-- C2 counterexample: an empty `items` list passes the Pydantic schema
(`List[OrderItem]` has no minimum length), so `createOrder` succeeds and
appends an order with `total_amount = 0` instead of failing with
ValidationError. -/
theorem createOrder_empty_items_accepted :
    create_order orders "order-x" "t0" "u1" [] "addr"
      = .ok (emptyItemsOrder, orders ++ [emptyItemsOrder]) := rfl

/-- C2 (amended): `createOrder` fails with ValidationError exactly when
some item has `quantity ≤ 0` or `price ≤ 0`, and then inserts nothing; an
empty `items` list is accepted and produces a pending order with
`total_amount = 0`. -/
theorem createOrder_item_validation (st : List Order)
    (nid ts uid addr : String) (items : List OrderItem) :
    (create_order st nid ts uid items addr = .error .validation
      ↔ ∃ it ∈ items, it.quantity ≤ 0 ∨ it.price ≤ 0)
    ∧ ((∃ it ∈ items, it.quantity ≤ 0 ∨ it.price ≤ 0) →
        applyOrderOp st (.create nid ts uid items addr) = st)
    ∧ create_order st nid ts uid [] addr
        = .ok ({ id := nid, user_id := uid, items := [], total_amount := 0,
                 status := "pending", shipping_address := addr,
                 created_at := ts },
               st ++ [{ id := nid, user_id := uid, items := [],
                        total_amount := 0, status := "pending",
                        shipping_address := addr, created_at := ts }]) := by
  have hiff : (items.all OrderItem.valid = false)
      ↔ ∃ it ∈ items, it.quantity ≤ 0 ∨ it.price ≤ 0 := by
    rw [List.all_eq_false]
    constructor
    · rintro ⟨it, hmem, hval⟩
      refine ⟨it, hmem, ?_⟩
      by_contra hcon
      push_neg at hcon
      exact hval (by simp [OrderItem.valid, hcon.1, hcon.2])
    · rintro ⟨it, hmem, hval⟩
      refine ⟨it, hmem, ?_⟩
      simp only [OrderItem.valid, Bool.and_eq_true, decide_eq_true_eq, not_and, not_lt]
      rcases hval with h | h
      · intro hq; exact absurd hq (not_lt.mpr h)
      · intro _; exact h
  by_cases h : items.all OrderItem.valid
  · refine ⟨?_, ?_, rfl⟩
    · simp only [create_order, h, if_true]
      constructor
      · intro hcon; cases hcon
      · intro hex
        exact absurd h (by simp [hiff.mpr hex])
    · intro hex
      exact absurd h (by simp [hiff.mpr hex])
  · have hfalse : items.all OrderItem.valid = false := by
      simpa using h
    refine ⟨?_, ?_, rfl⟩
    · simp [create_order, hfalse, hiff.mp hfalse]
    · intro _
      simp [applyOrderOp, create_order, hfalse]

theorem createOrder_item_validation_witness :
    (∃ it ∈ [({ product_id := "p1", quantity := 0, price := 5 } : OrderItem)],
        it.quantity ≤ 0 ∨ it.price ≤ 0)
    ∧ applyOrderOp orders
        (.create "order-y" "t0" "u1"
          [{ product_id := "p1", quantity := 0, price := 5 }] "addr")
        = orders :=
  ⟨⟨_, List.Mem.head _, Or.inl le_rfl⟩,
   (createOrder_item_validation orders "order-y" "t0" "u1" "addr"
      [{ product_id := "p1", quantity := 0, price := 5 }]).2.1
     ⟨_, List.Mem.head _, Or.inl le_rfl⟩⟩

/-- C3: the seeded ledger itself violates the valid-state invariant — the
first seeded order carries status `"completed"`, which is outside
`valid_statuses` and can never be produced by the API (`createOrder`
forces `"pending"`, `updateOrderStatus` admits only the valid set). -/
theorem seeded_status_outside_valid_set :
    orders.map Order.status = ["completed", "pending"]
    ∧ valid_statuses.contains "completed" = false :=
  ⟨rfl, by decide⟩

/-- C4 counterexample: `createProduct` checks only the presence of
`name`, `price`, `category`, so a product with negative price is accepted
and inserted into the catalog. -/
theorem createProduct_accepts_nonpositive_price :
    create_product products "prod-x" "t0" (some "Junk") (some (-5))
        (some "Misc") none
      = .ok (badProduct, products ++ [badProduct])
    ∧ badProduct.price < 0 :=
  ⟨rfl, by norm_num [badProduct]⟩

/-- C4 (amended): every seeded product has positive price, but
`createProduct` validates only the presence of `name`, `price` and
`category` — it succeeds for any supplied price, positive or not, so the
positive-price invariant is not enforced by creation. -/
theorem createProduct_validates_presence_only :
    products.all (fun p => decide (0 < p.price)) = true
    ∧ (∀ (ps : List Product) (nid ts n : String) (pr : ℚ) (c : String)
          (stk : Option Int),
        create_product ps nid ts (some n) (some pr) (some c) stk
          = .ok (newProductRecord nid ts n pr c stk,
                 ps ++ [newProductRecord nid ts n pr c stk]))
    ∧ (∀ (ps : List Product) (nid ts : String) (n? : Option String)
          (pr? : Option ℚ) (c? : Option String) (stk : Option Int),
        n?.isNone ∨ pr?.isNone ∨ c?.isNone →
          create_product ps nid ts n? pr? c? stk = .error .validation) := by
  refine ⟨?_, fun ps nid ts n pr c stk => rfl, ?_⟩
  · simp only [products, List.all_cons, List.all_nil, Bool.and_true]
    norm_num
  · rintro ps nid ts n? pr? c? stk h
    rcases n? with _ | n <;> rcases pr? with _ | pr <;> rcases c? with _ | c <;>
      simp_all [create_product]

theorem createProduct_validates_presence_only_witness :
    (Option.isNone (none : Option String) ∨ Option.isNone (some (5 : ℚ))
      ∨ Option.isNone (some "Misc"))
    ∧ create_product products "prod-y" "t0" none (some 5) (some "Misc") none
        = .error .validation :=
  ⟨Or.inl rfl,
   createProduct_validates_presence_only.2.2 products "prod-y" "t0" none
     (some 5) (some "Misc") none (Or.inl rfl)⟩

lemma map_noop {α : Type} (g : α → α) (l : List α) (h : ∀ a ∈ l, g a = a) :
    l.map g = l := by
  induction l with
  | nil => rfl
  | cons x xs ih =>
      simp [h x (List.Mem.head _), ih (fun a ha => h a (List.Mem.tail _ ha))]

lemma find?_eq_of_nodup (ps : List Product) (pid : String) (p : Product)
    (hnd : (ps.map Product.id).Nodup) (hp : p ∈ ps) (hid : p.id = pid) :
    ps.find? (fun q => q.id == pid) = some p := by
  induction ps with
  | nil => cases hp
  | cons q rest ih =>
      rcases List.mem_cons.mp hp with hq | hq
      · subst hq
        simp [List.find?_cons, hid]
      · have hqid : (q.id == pid) = false := by
          have hni : q.id ∉ rest.map Product.id :=
            (List.nodup_cons.mp (by simpa using hnd)).1
          have : p.id ∈ rest.map Product.id := List.mem_map_of_mem _ hq
          simp only [beq_eq_false_iff_ne, ne_eq]
          intro hcon
          exact hni (by rw [hcon, ← hid]; exact this)
        rw [List.find?_cons, hqid]
        exact ih (List.nodup_cons.mp (by simpa using hnd)).2 hq

lemma updateProductFirst_eq_map (ps : List Product) (pid : String)
    (f : Product → Product) (hnd : (ps.map Product.id).Nodup) :
    updateProductFirst ps pid f
      = ps.map (fun q => if q.id == pid then f q else q) := by
  induction ps with
  | nil => rfl
  | cons q rest ih =>
      have hnd' : (rest.map Product.id).Nodup :=
        (List.nodup_cons.mp (by simpa using hnd)).2
      by_cases hq : q.id = pid
      · have hnotin : ∀ r ∈ rest, r.id ≠ pid := by
          intro r hr hcon
          have hni : q.id ∉ rest.map Product.id :=
            (List.nodup_cons.mp (by simpa using hnd)).1
          exact hni (by rw [hq, ← hcon]; exact List.mem_map_of_mem _ hr)
        have hmap : rest.map (fun r => if r.id = pid then f r else r) = rest :=
          map_noop _ _ (fun r hr => by simp [hnotin r hr])
        simp [updateProductFirst, hq, hmap]
      · simp [updateProductFirst, hq, ih hnd']

/-- C8: for a product present in a duplicate-free catalog and a non-empty
patch, `updateProduct` merges: every supplied field overwrites the stored
value, every absent field keeps its prior value, `updated_at` is stamped,
`id` and `created_at` survive, and every record with a different id is
left untouched (the result is the pointwise map that rewrites only the
matching record). -/
theorem updateProduct_merges (ps : List Product) (pid ts : String)
    (d : ProductPatch) (p : Product)
    (hnd : (ps.map Product.id).Nodup) (hp : p ∈ ps) (hid : p.id = pid)
    (hne : dataEmpty d = false) :
    update_product ps pid d ts
      = .ok (mergeProduct p d ts,
             ps.map (fun q => if q.id == pid then mergeProduct q d ts else q))
    ∧ (mergeProduct p d ts).name = d.name.getD p.name
    ∧ (mergeProduct p d ts).price = d.price.getD p.price
    ∧ (mergeProduct p d ts).category = d.category.getD p.category
    ∧ (mergeProduct p d ts).stock = d.stock.getD p.stock
    ∧ (mergeProduct p d ts).updated_at = some ts
    ∧ (mergeProduct p d ts).id = p.id
    ∧ (mergeProduct p d ts).created_at = p.created_at := by
  refine ⟨?_, rfl, rfl, rfl, rfl, rfl, rfl, rfl⟩
  rw [update_product, find?_eq_of_nodup ps pid p hnd hp hid,
    updateProductFirst_eq_map ps pid _ hnd]
  simp [hne]

theorem updateProduct_merges_witness :
    ((products.map Product.id).Nodup
      ∧ ({ id := "2", name := "Phone", price := 699.99,
           category := "Electronics", stock := 100 } : Product) ∈ products
      ∧ dataEmpty { price := some 650 } = false)
    ∧ update_product products "2" { price := some 650 } "t1"
        = .ok (mergeProduct
                 { id := "2", name := "Phone", price := 699.99,
                   category := "Electronics", stock := 100 }
                 { price := some 650 } "t1",
               products.map (fun q =>
                 if q.id == "2" then mergeProduct q { price := some 650 } "t1"
                 else q)) :=
  ⟨⟨by decide, List.Mem.tail _ (List.Mem.head _), rfl⟩,
   (updateProduct_merges products "2" "t1" { price := some 650 }
      { id := "2", name := "Phone", price := 699.99,
        category := "Electronics", stock := 100 }
      (by decide) (List.Mem.tail _ (List.Mem.head _)) rfl rfl).1⟩

lemma mem_updateOrderFirst {os : List Order} {oid : String}
    {f : Order → Order} {o : Order}
    (h : o ∈ updateOrderFirst os oid f) :
    o ∈ os ∨ ∃ o₀ ∈ os, o = f o₀ := by
  induction os with
  | nil => cases h
  | cons q rest ih =>
      by_cases hq : q.id == oid
      · simp only [updateOrderFirst, hq, if_true] at h
        rcases List.mem_cons.mp h with h | h
        · exact Or.inr ⟨q, List.Mem.head _, h⟩
        · exact Or.inl (List.Mem.tail _ h)
      · simp only [updateOrderFirst, hq, if_false, Bool.false_eq_true] at h
        rcases List.mem_cons.mp h with h | h
        · exact Or.inl (h ▸ List.Mem.head _)
        · rcases ih h with h | ⟨o₀, ho₀, rfl⟩
          · exact Or.inl (List.Mem.tail _ h)
          · exact Or.inr ⟨o₀, List.Mem.tail _ ho₀, rfl⟩

lemma applyOrderOp_preserves_consistent (st : List Order) (op : OrderOp)
    (h : ∀ o ∈ st, orderConsistent o) :
    ∀ o ∈ applyOrderOp st op, orderConsistent o := by
  intro o ho
  cases op with
  | create nid ts uid its addr =>
      by_cases hv : its.all OrderItem.valid
      · simp only [applyOrderOp, create_order, hv, if_true] at ho
        rcases List.mem_append.mp ho with hm | hm
        · exact h o hm
        · rcases List.mem_singleton.mp hm with rfl
          rfl
      · simp only [applyOrderOp, create_order, hv, if_false,
          Bool.false_eq_true] at ho
        exact h o ho
  | updateStatus oid s ts =>
      by_cases hs : s ∈ valid_statuses
      · rcases hfind : st.find? (fun q => q.id == oid) with _ | o₀
        · have hval : update_order_status st oid s ts = .error .notFound := by
            simp [update_order_status, hs, hfind]
          simp only [applyOrderOp, hval] at ho
          exact h o ho
        · have hval : update_order_status st oid s ts
              = .ok ({ o₀ with status := s, updated_at := some ts },
                     updateOrderFirst st oid
                       (fun q => { q with status := s, updated_at := some ts })) := by
            simp [update_order_status, hs, hfind]
          simp only [applyOrderOp, hval] at ho
          rcases mem_updateOrderFirst ho with hm | ⟨o₁, ho₁, rfl⟩
          · exact h o hm
          · exact h o₁ ho₁
      · have hval : update_order_status st oid s ts = .error .validation := by
          simp [update_order_status, hs]
        simp only [applyOrderOp, hval] at ho
        exact h o ho
  | delete oid =>
      simp only [applyOrderOp, cancel_order] at ho
      exact h o (List.mem_filter.mp ho).1

lemma updateOrderFirst_items_total (os : List Order) (oid s ts : String) :
    (updateOrderFirst os oid
        (fun q => { q with status := s, updated_at := some ts })).map
      (fun q => (q.items, q.total_amount))
      = os.map (fun q => (q.items, q.total_amount)) := by
  induction os with
  | nil => rfl
  | cons q rest ih =>
      by_cases hq : q.id == oid <;>
        simp [updateOrderFirst, hq, ih]

lemma seed_orders_consistent : ∀ o ∈ orders, orderConsistent o := by
  intro o ho
  fin_cases ho <;>
    · show orderConsistent _
      unfold orderConsistent orderTotal
      norm_num

/-- C1: in every ledger state reachable from the seeded state by any
sequence of requests, every order's `total_amount` equals the sum of
`quantity * price` over its items; `createOrder` returns an order whose
total is exactly that sum over the supplied items; and a status update
rewrites no order's `items` or `total_amount`. -/
theorem order_total_invariant :
    (∀ ops : List OrderOp, ∀ o ∈ runOrderOps ops, orderConsistent o)
    ∧ (∀ (st : List Order) (nid ts uid addr : String)
          (items : List OrderItem) (o : Order) (st' : List Order),
        create_order st nid ts uid items addr = .ok (o, st') →
          o.total_amount = orderTotal items)
    ∧ (∀ (st : List Order) (oid s ts : String) (o : Order) (st' : List Order),
        update_order_status st oid s ts = .ok (o, st') →
          st'.map (fun q => (q.items, q.total_amount))
            = st.map (fun q => (q.items, q.total_amount))) := by
  refine ⟨?_, ?_, ?_⟩
  · have hrun : ∀ (ops : List OrderOp) (st : List Order),
        (∀ o ∈ st, orderConsistent o) →
        ∀ o ∈ ops.foldl applyOrderOp st, orderConsistent o := by
      intro ops
      induction ops with
      | nil => intro st h o ho; exact h o ho
      | cons op rest ih =>
          intro st h o ho
          exact ih _ (applyOrderOp_preserves_consistent st op h) o ho
    intro ops o ho
    exact hrun ops orders seed_orders_consistent o ho
  · intro st nid ts uid addr items o st' hok
    by_cases hv : items.all OrderItem.valid
    · simp only [create_order, hv, if_true, Except.ok.injEq, Prod.mk.injEq] at hok
      rw [← hok.1]
    · simp [create_order, hv] at hok
  · intro st oid s ts o st' hok
    by_cases hs : s ∈ valid_statuses
    · rcases hfind : st.find? (fun q => q.id == oid) with _ | o₀
      · simp [update_order_status, hs, hfind] at hok
      · have hval : update_order_status st oid s ts
            = .ok ({ o₀ with status := s, updated_at := some ts },
                   updateOrderFirst st oid
                     (fun q => { q with status := s, updated_at := some ts })) := by
          simp [update_order_status, hs, hfind]
        rw [hval] at hok
        simp only [Except.ok.injEq, Prod.mk.injEq] at hok
        rw [← hok.2]
        exact updateOrderFirst_items_total st oid s ts
    · simp [update_order_status, hs] at hok

theorem order_total_invariant_witness :
    ({ id := "order-2", user_id := "2",
       items := [ { product_id := "2", quantity := 1, price := 699.99 } ],
       total_amount := 699.99, status := "pending",
       shipping_address := "456 Oak Ave, Town, State",
       created_at := "2024-01-16T14:20:00Z" } : Order) ∈ runOrderOps []
    ∧ orderConsistent
        { id := "order-2", user_id := "2",
          items := [ { product_id := "2", quantity := 1, price := 699.99 } ],
          total_amount := 699.99, status := "pending",
          shipping_address := "456 Oak Ave, Town, State",
          created_at := "2024-01-16T14:20:00Z" } :=
  ⟨List.Mem.tail _ (List.Mem.head _),
   order_total_invariant.1 [] _ (List.Mem.tail _ (List.Mem.head _))⟩
